import Mathlib

/-!
Verification of the sleep-tracker session admission core: the data model,
the repository queries, the create/update service logic, the local-time
rendering contract and the pagination cursor codec, embedded as pure
functions, together with proofs of the claimed properties.

Conventions of the embedding:
* machine timestamps (`time.Time` instants) are integers (nanoseconds since
  the epoch); `time.Time` values that still carry a rendering location are
  pairs of an instant and a location;
* UUID values are natural numbers; what matters to the code is equality
  and the byte-wise order used by the database, which `Nat` models;
* the database is a list of rows in presentation order; queries are pure
  functions over that list;
* fallible operations return `Except` / `Option` exactly where the source
  returns an error.
-/

deriving instance DecidableEq for Except

namespace SleepTracker

/-! ### Textual numerals

The pagination cursor is serialised through the standard library's JSON
marshaller, which renders the `id` and `start_at` fields as quoted text
(canonical UUID text and RFC3339 text).  The embedding models those two
library renderings as injective decimal numerals with an exact parser:
this preserves every property the codec logic depends on (injectivity,
exact parse-back of rendered values, and the quoted-string JSON shape). -/

/-- The character for decimal digit `d < 10`. -/
def digitChar (d : Nat) : Char := Char.ofNat (48 + d)

/-- Decimal rendering of a natural number, most significant digit first. -/
def natDigits (n : Nat) : List Char :=
  if _h : n < 10 then [digitChar n]
  else natDigits (n / 10) ++ [digitChar (n % 10)]
decreasing_by exact Nat.div_lt_self (by omega) (by omega)

/-- Numeric value of a decimal digit character, if it is one. -/
def decValue (c : Char) : Option Nat :=
  if 48 ≤ c.toNat ∧ c.toNat ≤ 57 then some (c.toNat - 48) else none

/-- Accumulating decimal parser. -/
def parseDecAux : List Char → Nat → Option Nat
  | [], acc => some acc
  | c :: cs, acc =>
    match decValue c with
    | some d => parseDecAux cs (acc * 10 + d)
    | none => none

/-- Parse a non-empty decimal numeral. -/
def parseDec (cs : List Char) : Option Nat :=
  match cs with
  | [] => none
  | _ => parseDecAux cs 0

theorem decValue_digitChar : ∀ d < 10, decValue (digitChar d) = some d := by decide

theorem digitChar_bounds : ∀ d < 10, 48 ≤ (digitChar d).toNat ∧ (digitChar d).toNat ≤ 57 := by
  decide

theorem natDigits_ne_nil (n : Nat) : natDigits n ≠ [] := by
  unfold natDigits
  split <;> simp

theorem natDigits_shape (n : Nat) : ∀ c ∈ natDigits n, ∃ d, d < 10 ∧ c = digitChar d := by
  induction n using natDigits.induct with
  | case1 n h =>
    intro c hc
    rw [natDigits, dif_pos h] at hc
    simp at hc
    exact ⟨n, h, hc⟩
  | case2 n h ih =>
    intro c hc
    rw [natDigits, dif_neg h] at hc
    rcases List.mem_append.1 hc with h1 | h2
    · exact ih c h1
    · simp at h2
      exact ⟨n % 10, Nat.mod_lt _ (by omega), h2⟩

theorem parseDecAux_append (xs ys : List Char) (acc : Nat) :
    parseDecAux (xs ++ ys) acc =
      match parseDecAux xs acc with
      | some a => parseDecAux ys a
      | none => none := by
  induction xs generalizing acc with
  | nil => simp [parseDecAux]
  | cons c cs ih =>
    simp only [List.cons_append, parseDecAux]
    cases decValue c with
    | some d => simp [ih]
    | none => simp

theorem parseDecAux_natDigits (n : Nat) :
    ∀ acc, parseDecAux (natDigits n) acc = some (acc * 10 ^ (natDigits n).length + n) := by
  induction n using natDigits.induct with
  | case1 n h =>
    intro acc
    rw [natDigits, dif_pos h]
    simp [parseDecAux, decValue_digitChar n h]
  | case2 n h ih =>
    intro acc
    rw [natDigits, dif_neg h]
    rw [parseDecAux_append]
    rw [ih acc]
    simp only [parseDecAux, decValue_digitChar (n % 10) (Nat.mod_lt _ (by omega))]
    have hlen : (natDigits (n / 10) ++ [digitChar (n % 10)]).length
        = (natDigits (n / 10)).length + 1 := by simp
    rw [hlen]
    congr 1
    rw [pow_succ]
    have := Nat.div_add_mod n 10
    ring_nf
    omega

theorem parseDec_natDigits (n : Nat) : parseDec (natDigits n) = some n := by
  have hne := natDigits_ne_nil n
  unfold parseDec
  cases h : natDigits n with
  | nil => exact absurd h hne
  | cons c cs =>
    have := parseDecAux_natDigits n 0
    rw [h] at this
    simpa using this

/-- Decimal rendering of an integer (minus sign for negative values). -/
def intDigits (i : Int) : List Char :=
  if i < 0 then '-' :: natDigits i.natAbs else natDigits i.natAbs

/-- Parse an optionally-signed decimal numeral. -/
def parseInt (cs : List Char) : Option Int :=
  match cs with
  | [] => none
  | c :: rest =>
    if c = '-' then (parseDec rest).map (fun n => -(n : Int))
    else (parseDec (c :: rest)).map (fun n => (n : Int))

theorem digitChar_ne_minus : ∀ d < 10, digitChar d ≠ '-' := by decide

theorem parseInt_intDigits (i : Int) : parseInt (intDigits i) = some i := by
  unfold intDigits
  split
  · next hneg =>
    simp only [parseInt, if_pos rfl, parseDec_natDigits, Option.map_some']
    show some (-(i.natAbs : Int)) = some i
    congr 1
    omega
  · next hpos =>
    have hne := natDigits_ne_nil i.natAbs
    cases h : natDigits i.natAbs with
    | nil => exact absurd h hne
    | cons c cs =>
      have hc : ∃ d, d < 10 ∧ c = digitChar d := by
        apply natDigits_shape i.natAbs
        rw [h]; exact List.mem_cons_self _ _
      rcases hc with ⟨d, hd, rfl⟩
      simp only [parseInt, if_neg (digitChar_ne_minus d hd)]
      rw [← h, parseDec_natDigits]
      show some ((i.natAbs : Nat) : Int) = some i
      congr 1
      omega

/-! ### Base64 (URL alphabet, padded)

Faithful model of the standard library's URL-safe base64 codec used by the
cursor: the encoder emits four alphabet characters per three input bytes
with `=` padding, and the decoder rejects any character outside the
alphabet, misplaced padding, and any input whose length is not a multiple
of four. -/

/-- The URL-safe base64 alphabet. -/
def b64Alphabet : List Char :=
  "ABCDEFGHIJKLMNOPQRSTUVWXYZabcdefghijklmnopqrstuvwxyz0123456789-_".data

/-- The alphabet character for a 6-bit value. -/
def b64char (d : Nat) : Char := b64Alphabet.getD d 'A'

/-- The 6-bit value of an alphabet character, if it is one. -/
def b64val (c : Char) : Option Nat := b64Alphabet.findIdx? (fun x => x == c)

/-- Base64url-encode a byte list. -/
def b64encodeList : List Nat → List Char
  | [] => []
  | [a] => [b64char (a / 4), b64char (a % 4 * 16), '=', '=']
  | [a, b] => [b64char (a / 4), b64char (a % 4 * 16 + b / 16), b64char (b % 16 * 4), '=']
  | a :: b :: c :: rest =>
    b64char (a / 4) :: b64char (a % 4 * 16 + b / 16) :: b64char (b % 16 * 4 + c / 64)
      :: b64char (c % 64) :: b64encodeList rest

/-- Base64url-decode a character list; errors on corrupt input. -/
def b64decodeList : List Char → Except String (List Nat)
  | [] => .ok []
  | c1 :: c2 :: c3 :: c4 :: rest =>
    match b64val c1, b64val c2 with
    | some d1, some d2 =>
      if c3 = '=' then
        if c4 = '=' ∧ rest = [] then .ok [d1 * 4 + d2 / 16]
        else .error "illegal base64 data"
      else
        match b64val c3 with
        | some d3 =>
          if c4 = '=' then
            if rest = [] then .ok [d1 * 4 + d2 / 16, d2 % 16 * 16 + d3 / 4]
            else .error "illegal base64 data"
          else
            match b64val c4 with
            | some d4 =>
              match b64decodeList rest with
              | .ok bs =>
                .ok ((d1 * 4 + d2 / 16) :: (d2 % 16 * 16 + d3 / 4) :: (d3 % 4 * 64 + d4) :: bs)
              | .error e => .error e
            | none => .error "illegal base64 data"
        | none => .error "illegal base64 data"
    | _, _ => .error "illegal base64 data"
  | _ => .error "illegal base64 data"

theorem b64val_b64char : ∀ d < 64, b64val (b64char d) = some d := by decide

theorem b64char_ne_pad : ∀ d < 64, b64char d ≠ '=' := by decide

theorem b64_roundtrip (bs : List Nat) (hb : ∀ b ∈ bs, b < 256) :
    b64decodeList (b64encodeList bs) = .ok bs := by
  induction bs using b64encodeList.induct with
  | case1 => simp [b64encodeList, b64decodeList]
  | case2 a =>
    have ha : a < 256 := hb a (by simp)
    have e1 := b64val_b64char (a / 4) (by omega)
    have e2 := b64val_b64char (a % 4 * 16) (by omega)
    rw [b64encodeList]
    simp [b64decodeList, e1, e2]
    omega
  | case3 a b =>
    have ha : a < 256 := hb a (by simp)
    have hbb : b < 256 := hb b (by simp)
    have e1 := b64val_b64char (a / 4) (by omega)
    have e2 := b64val_b64char (a % 4 * 16 + b / 16) (by omega)
    have e3 := b64val_b64char (b % 16 * 4) (by omega)
    have n3 := b64char_ne_pad (b % 16 * 4) (by omega)
    rw [b64encodeList]
    simp [b64decodeList, e1, e2, e3, n3]
    omega
  | case4 a b c rest ih =>
    have ha : a < 256 := hb a (by simp)
    have hbb : b < 256 := hb b (by simp)
    have hc : c < 256 := hb c (by simp)
    have hrest : ∀ x ∈ rest, x < 256 := by
      intro x hx
      exact hb x (by simp [hx])
    have e1 := b64val_b64char (a / 4) (by omega)
    have e2 := b64val_b64char (a % 4 * 16 + b / 16) (by omega)
    have e3 := b64val_b64char (b % 16 * 4 + c / 64) (by omega)
    have e4 := b64val_b64char (c % 64) (by omega)
    have n3 := b64char_ne_pad (b % 16 * 4 + c / 64) (by omega)
    have n4 := b64char_ne_pad (c % 64) (by omega)
    rw [b64encodeList]
    simp [b64decodeList, e1, e2, e3, e4, n3, n4, ih hrest]
    omega

theorem b64encodeList_length_pos (bs : List Nat) (h : bs ≠ []) :
    4 ≤ (b64encodeList bs).length := by
  unfold b64encodeList
  split <;> simp_all

/-! ### Pagination cursor codec (`pkg/pagination/cursor.go`)

`Cursor.Encode` JSON-marshals the `{id, start_at}` pair and base64url-encodes
the bytes; `DecodeCursor` maps the empty string to `none`, otherwise
base64-decodes and JSON-unmarshals, propagating either stage's error. -/

def quoteChar : Char := Char.ofNat 34

def lbraceChar : Char := Char.ofNat 123

def rbraceChar : Char := Char.ofNat 125

/-- Pagination cursor: the `{id, start_at}` pair identifying the last item
of a page (`pagination.Cursor`). -/
structure Cursor where
  id : Nat
  startAt : Int
deriving DecidableEq, Repr

/-- The JSON text the library marshaller produces for a cursor:
an object with the quoted `id` field followed by the quoted `start_at`
field, in struct declaration order. -/
def marshalCursor (c : Cursor) : List Char :=
  [lbraceChar, quoteChar, 'i', 'd', quoteChar, ':', quoteChar] ++ natDigits c.id
    ++ [quoteChar, ',', quoteChar] ++ ['s', 't', 'a', 'r', 't', '_', 'a', 't']
    ++ [quoteChar, ':', quoteChar]
    ++ intDigits c.startAt ++ [quoteChar, rbraceChar]

/-- Read a quoted token: the content up to the closing quote and the rest. -/
def parseQuoted (cs : List Char) : Option (List Char × List Char) :=
  match cs with
  | [] => none
  | c :: rest =>
    if c = quoteChar then
      match rest.dropWhile (fun x => x ≠ quoteChar) with
      | q :: rest2 =>
        if q = quoteChar then some (rest.takeWhile (fun x => x ≠ quoteChar), rest2)
        else none
      | [] => none
    else none

/-- Expect a specific character at the head of the input. -/
def expectChar (c : Char) (cs : List Char) : Option (List Char) :=
  match cs with
  | x :: rest => if x = c then some rest else none
  | [] => none

/-- Apply one JSON field to the cursor being built: known keys must carry a
parseable value (a failed parse otherwise), unknown keys are ignored —
the unmarshaller's semantics for extra fields. -/
def setCursorField (key val : List Char) (c : Cursor) : Option Cursor :=
  if key = ['i', 'd'] then (parseDec val).map (fun n => { c with id := n })
  else if key = ['s', 't', 'a', 'r', 't', '_', 'a', 't'] then
    (parseInt val).map (fun i => { c with startAt := i })
  else some c

/-- Parse the `"key":"value"` pairs of a flat JSON object, after the opening
brace; `fuel` bounds the number of pairs. -/
def parsePairsAux : Nat → List Char → Cursor → Option Cursor
  | 0, _, _ => none
  | fuel + 1, cs, acc =>
    (parseQuoted cs).bind fun kr =>
    (expectChar ':' kr.2).bind fun rest2 =>
    (parseQuoted rest2).bind fun vr =>
    (setCursorField kr.1 vr.1 acc).bind fun acc2 =>
    if vr.2 = [rbraceChar] then some acc2
    else (expectChar ',' vr.2).bind fun rest4 => parsePairsAux fuel rest4 acc2

/-- Model of the library JSON unmarshaller applied to the cursor struct:
accepts a flat object of quoted fields; absent fields keep their zero
values; unknown fields are ignored; any other input fails to parse. -/
def unmarshalCursor (cs : List Char) : Option Cursor :=
  match cs with
  | [] => none
  | c :: rest =>
    if c = lbraceChar then
      if rest = [rbraceChar] then some ⟨0, 0⟩
      else parsePairsAux rest.length rest ⟨0, 0⟩
    else none

/-- `Cursor.Encode` (`cursor.go`): marshal to JSON, base64url-encode. -/
def Cursor.encode (c : Cursor) : String :=
  String.mk (b64encodeList ((marshalCursor c).map Char.toNat))

/-- `DecodeCursor` (`cursor.go`): the empty string decodes to `none`
("start from the first page"); otherwise base64-decode and JSON-unmarshal,
returning the first error met. -/
def DecodeCursor (s : String) : Except String (Option Cursor) :=
  if s = "" then .ok none
  else
    (b64decodeList s.data).bind fun bytes =>
      (unmarshalCursor (bytes.map Char.ofNat)).elim
        (.error "invalid JSON payload") (fun c => .ok (some c))

/-- `NormalizeLimit` (`cursor.go`): default 20, clamped to at most 100. -/
def NormalizeLimit (limit : Int) : Nat :=
  if limit ≤ 0 then 20
  else if limit > 100 then 100
  else limit.toNat

theorem natDigits_ne_quote (n : Nat) :
    ∀ c ∈ natDigits n, (decide (c ≠ quoteChar)) = true := by
  intro c hc
  rcases natDigits_shape n c hc with ⟨d, hd, rfl⟩
  exact (by decide : ∀ d < 10, (decide (digitChar d ≠ quoteChar)) = true) d hd

theorem intDigits_ne_quote (i : Int) :
    ∀ c ∈ intDigits i, (decide (c ≠ quoteChar)) = true := by
  intro c hc
  unfold intDigits at hc
  split at hc
  · rcases List.mem_cons.1 hc with rfl | h2
    · decide
    · exact natDigits_ne_quote _ c h2
  · exact natDigits_ne_quote _ c hc

theorem parseQuoted_digits (n : Nat) (rest : List Char) :
    parseQuoted (quoteChar :: (natDigits n ++ (quoteChar :: rest)))
      = some (natDigits n, rest) := by
  rw [parseQuoted]
  rw [if_pos rfl]
  rw [List.dropWhile_append_of_pos (natDigits_ne_quote n)]
  rw [List.takeWhile_append_of_pos (natDigits_ne_quote n)]
  simp [List.dropWhile, List.takeWhile]

theorem parseQuoted_intDigits (i : Int) (rest : List Char) :
    parseQuoted (quoteChar :: (intDigits i ++ (quoteChar :: rest)))
      = some (intDigits i, rest) := by
  rw [parseQuoted]
  rw [if_pos rfl]
  rw [List.dropWhile_append_of_pos (intDigits_ne_quote i)]
  rw [List.takeWhile_append_of_pos (intDigits_ne_quote i)]
  simp [List.dropWhile, List.takeWhile]

theorem parseQuoted_key (ks : List Char) (rest : List Char)
    (hk : ∀ c ∈ ks, (decide (c ≠ quoteChar)) = true) :
    parseQuoted (quoteChar :: (ks ++ (quoteChar :: rest))) = some (ks, rest) := by
  rw [parseQuoted]
  rw [if_pos rfl]
  rw [List.dropWhile_append_of_pos hk]
  rw [List.takeWhile_append_of_pos hk]
  simp [List.dropWhile, List.takeWhile]

theorem parse_step2 (s : Int) (f : Nat) (acc : Cursor) :
    parsePairsAux (f + 1)
      (quoteChar :: 's' :: 't' :: 'a' :: 'r' :: 't' :: '_' :: 'a' :: 't' :: quoteChar
        :: ':' :: quoteChar :: (intDigits s ++ quoteChar :: [rbraceChar])) acc
      = some { acc with startAt := s } := by
  rw [show (quoteChar :: 's' :: 't' :: 'a' :: 'r' :: 't' :: '_' :: 'a' :: 't' :: quoteChar
        :: ':' :: quoteChar :: (intDigits s ++ quoteChar :: [rbraceChar]))
      = (quoteChar :: (['s', 't', 'a', 'r', 't', '_', 'a', 't']
          ++ (quoteChar :: (':' :: quoteChar :: (intDigits s ++ quoteChar :: [rbraceChar])))))
      from rfl]
  rw [parsePairsAux]
  rw [parseQuoted_key _ _ (by decide)]
  rw [show (intDigits s ++ quoteChar :: [rbraceChar])
      = (intDigits s ++ (quoteChar :: [rbraceChar])) from rfl]
  simp [expectChar, parseQuoted_intDigits, setCursorField, parseInt_intDigits]

theorem parse_step1 (i : Nat) (s : Int) (f : Nat) (acc : Cursor) :
    parsePairsAux (f + 2)
      (quoteChar :: 'i' :: 'd' :: quoteChar :: ':' :: quoteChar
        :: (natDigits i
          ++ quoteChar :: ',' :: quoteChar :: 's' :: 't' :: 'a' :: 'r' :: 't' :: '_'
            :: 'a' :: 't' :: quoteChar :: ':' :: quoteChar
            :: (intDigits s ++ quoteChar :: [rbraceChar]))) acc
      = some { acc with id := i, startAt := s } := by
  rw [show (quoteChar :: 'i' :: 'd' :: quoteChar :: ':' :: quoteChar
        :: (natDigits i
          ++ quoteChar :: ',' :: quoteChar :: 's' :: 't' :: 'a' :: 'r' :: 't' :: '_'
            :: 'a' :: 't' :: quoteChar :: ':' :: quoteChar
            :: (intDigits s ++ quoteChar :: [rbraceChar])))
      = (quoteChar :: (['i', 'd']
          ++ (quoteChar :: (':' :: quoteChar :: (natDigits i
            ++ (quoteChar :: (',' :: quoteChar :: 's' :: 't' :: 'a' :: 'r' :: 't' :: '_'
              :: 'a' :: 't' :: quoteChar :: ':' :: quoteChar
              :: (intDigits s ++ quoteChar :: [rbraceChar])))))))) from rfl]
  rw [parsePairsAux]
  rw [parseQuoted_key _ _ (by decide)]
  rw [show (natDigits i
            ++ (quoteChar :: (',' :: quoteChar :: 's' :: 't' :: 'a' :: 'r' :: 't' :: '_'
              :: 'a' :: 't' :: quoteChar :: ':' :: quoteChar
              :: (intDigits s ++ quoteChar :: [rbraceChar]))))
      = (natDigits i
            ++ (quoteChar :: (',' :: quoteChar :: 's' :: 't' :: 'a' :: 'r' :: 't' :: '_'
              :: 'a' :: 't' :: quoteChar :: ':' :: quoteChar
              :: (intDigits s ++ quoteChar :: [rbraceChar])))) from rfl]
  simp only [Option.some_bind]
  simp [expectChar, parseQuoted_digits, setCursorField, parseDec_natDigits, parse_step2]

theorem natDigits_lt256 (n : Nat) : ∀ c ∈ natDigits n, c.toNat < 256 := by
  intro c hc
  rcases natDigits_shape n c hc with ⟨d, hd, rfl⟩
  have := digitChar_bounds d hd
  omega

theorem intDigits_lt256 (i : Int) : ∀ c ∈ intDigits i, c.toNat < 256 := by
  intro c hc
  unfold intDigits at hc
  split at hc
  · rcases List.mem_cons.1 hc with rfl | h2
    · decide
    · exact natDigits_lt256 _ c h2
  · exact natDigits_lt256 _ c hc

theorem marshalCursor_lt256 (c : Cursor) : ∀ ch ∈ marshalCursor c, ch.toNat < 256 := by
  rw [marshalCursor]
  refine List.forall_mem_append.2 ⟨List.forall_mem_append.2 ⟨List.forall_mem_append.2
    ⟨List.forall_mem_append.2 ⟨List.forall_mem_append.2 ⟨List.forall_mem_append.2
      ⟨by decide, natDigits_lt256 _⟩, by decide⟩, by decide⟩, by decide⟩,
        intDigits_lt256 _⟩, by decide⟩

theorem parse_obj (i : Nat) (s : Int) (fuel : Nat) (h : 2 ≤ fuel) (acc : Cursor) :
    parsePairsAux fuel
      (quoteChar :: 'i' :: 'd' :: quoteChar :: ':' :: quoteChar
        :: (natDigits i
          ++ quoteChar :: ',' :: quoteChar :: 's' :: 't' :: 'a' :: 'r' :: 't' :: '_'
            :: 'a' :: 't' :: quoteChar :: ':' :: quoteChar
            :: (intDigits s ++ quoteChar :: [rbraceChar]))) acc
      = some { acc with id := i, startAt := s } := by
  obtain ⟨k, rfl⟩ := Nat.exists_eq_add_of_le h
  rw [Nat.add_comm 2 k]
  exact parse_step1 i s k acc

theorem unmarshal_marshal (c : Cursor) : unmarshalCursor (marshalCursor c) = some c := by
  obtain ⟨i, s⟩ := c
  rw [marshalCursor]
  simp only [List.cons_append, List.nil_append, List.append_assoc]
  simp only [unmarshalCursor]
  simp only [if_true]
  rw [if_neg (by simp)]
  rw [parse_obj i s _ (by simp) ⟨0, 0⟩]

/-- `(Except.ok a).bind f` computes to `f a`. -/
theorem bindOk {α β ε : Type} (a : α) (f : α → Except ε β) :
    (Except.ok a : Except ε α).bind f = f a := rfl

/-- `(Except.error e).bind f` propagates the error. -/
theorem bindError {α β ε : Type} (e : ε) (f : α → Except ε β) :
    (Except.error e : Except ε α).bind f = .error e := rfl

theorem map_toNat_ofNat (l : List Char) : (l.map Char.toNat).map Char.ofNat = l := by
  induction l with
  | nil => rfl
  | cons c cs ih => simp [Char.ofNat_toNat, ih]

theorem decode_encode (c : Cursor) : DecodeCursor (Cursor.encode c) = .ok (some c) := by
  have hb : ∀ b ∈ (marshalCursor c).map Char.toNat, b < 256 := by
    intro b hbm
    rcases List.mem_map.1 hbm with ⟨ch, hch, rfl⟩
    exact marshalCursor_lt256 c ch hch
  have hml4 : 4 ≤ (b64encodeList ((marshalCursor c).map Char.toNat)).length :=
    b64encodeList_length_pos _ (by simp [marshalCursor])
  unfold Cursor.encode DecodeCursor
  rw [if_neg ?hne]
  case hne =>
    intro h
    have hdata : b64encodeList ((marshalCursor c).map Char.toNat) = ("" : String).data := by
      rw [← h]
    rw [show ("" : String).data = [] from rfl] at hdata
    rw [hdata] at hml4
    simp at hml4
  rw [show (String.mk (b64encodeList ((marshalCursor c).map Char.toNat))).data
      = b64encodeList ((marshalCursor c).map Char.toNat) from rfl]
  rw [b64_roundtrip _ hb]
  rw [bindOk]
  rw [map_toNat_ofNat]
  rw [unmarshal_marshal]
  simp

theorem decode_empty : DecodeCursor "" = .ok none := rfl

theorem decode_b64_error (s : String) (e : String) (h : b64decodeList s.data = .error e) :
    DecodeCursor s = .error e := by
  have hsne : s ≠ "" := by
    intro hs
    rw [hs] at h
    simp [b64decodeList] at h
  unfold DecodeCursor
  rw [if_neg hsne, h, bindError]

theorem b64encodeList_length_ge8 (bs : List Nat) (h : 4 ≤ bs.length) :
    8 ≤ (b64encodeList bs).length := by
  match bs, h with
  | a :: b :: c :: d :: rest, _ =>
    rw [b64encodeList]
    have := b64encodeList_length_pos (d :: rest) (by simp)
    simp only [List.length_cons]
    omega

theorem encode_length_ge8 (c : Cursor) : 8 ≤ (Cursor.encode c).length := by
  unfold Cursor.encode
  rw [show (String.mk (b64encodeList ((marshalCursor c).map Char.toNat))).length
      = (b64encodeList ((marshalCursor c).map Char.toNat)).length from rfl]
  apply b64encodeList_length_ge8
  rw [marshalCursor]
  simp

/-! ### Domain model (`internal/domain`) -/

/-- Sleep session category (`SleepType`): CORE or NAP. -/
inductive SleepType where
  | core
  | nap
deriving DecidableEq, Repr

/-- Business-rule errors (`domain/errors.go`). -/
inductive DomainError where
  | notFound
  | conflict
  | overlappingSleep
  | duplicateRequest
  | invalidInput
deriving DecidableEq, Repr

/-- A rendering location, as returned by the library's zone lookup:
UTC or a loaded named zone. -/
inductive GoLocation where
  | utc
  | loc (name : String)
deriving DecidableEq, Repr

/-- A `time.Time` value: an absolute instant (nanoseconds since the epoch)
together with the location used only for rendering. -/
structure GoTime where
  instant : Int
  zone : GoLocation
deriving DecidableEq, Repr

/-- `t.UTC()`: the same instant, rendered in UTC. -/
def GoTime.utc (t : GoTime) : GoTime := ⟨t.instant, .utc⟩

/-- `t.In(loc)`: the same instant, rendered in the given location. -/
def GoTime.inLoc (t : GoTime) (l : GoLocation) : GoTime := ⟨t.instant, l⟩

/-- `t.Sub(u)`: elapsed duration, an instant subtraction. -/
def GoTime.sub (t u : GoTime) : Int := t.instant - u.instant

/-- `User` row (`domain/user.go`). -/
structure User where
  id : Nat
  timezone : String
  createdAt : Int
deriving DecidableEq, Repr

/-- `SleepLog` row (`domain/sleep_log.go`): instants stored canonically
in UTC. -/
structure SleepLog where
  id : Nat
  userId : Nat
  startAt : Int
  endAt : Int
  quality : Int
  type : SleepType
  localTimezone : String
  clientRequestId : Option String
  createdAt : Int
deriving DecidableEq, Repr

/-- `SleepLogResponse`: the stored fields plus the two local rendering
times. -/
structure SleepLogResponse where
  id : Nat
  userId : Nat
  startAt : Int
  endAt : Int
  quality : Int
  type : SleepType
  clientRequestId : Option String
  createdAt : Int
  localTimezone : String
  localStartAt : GoTime
  localEndAt : GoTime
deriving DecidableEq, Repr

/-- `SleepLog.ToResponse` (`domain/sleep_log.go`): render the stored UTC
instants in the session's `local_timezone`, falling back to UTC when the
name is empty or does not resolve, and echo the stored zone string
unchanged. `resolve` stands for the process zone database consulted by
`time.LoadLocation`. -/
def SleepLog.toResponse (resolve : String → Option GoLocation) (s : SleepLog) :
    SleepLogResponse :=
  let loc :=
    if s.localTimezone ≠ "" then
      match resolve s.localTimezone with
      | some l => l
      | none => GoLocation.utc
    else GoLocation.utc
  { id := s.id, userId := s.userId, startAt := s.startAt, endAt := s.endAt,
    quality := s.quality, type := s.type, clientRequestId := s.clientRequestId,
    createdAt := s.createdAt, localTimezone := s.localTimezone,
    localStartAt := GoTime.inLoc ⟨s.startAt, .utc⟩ loc,
    localEndAt := GoTime.inLoc ⟨s.endAt, .utc⟩ loc }

/-- `CreateSleepLogRequest` (`domain/sleep_log.go`). -/
structure CreateSleepLogRequest where
  startAt : GoTime
  endAt : GoTime
  quality : Int
  type : SleepType
  clientRequestId : Option String
  localTimezone : Option String
deriving DecidableEq, Repr

/-- Modelled from the spec: `UpdateSleepLogRequest` is declared outside the
provided sources (only its caller `sleepLogService.Update` and the tests
are present); per §4.4/§6 it carries exactly the optional fields the update
path applies: `start_at`, `end_at`, `quality`, `type`, `local_timezone`. -/
structure UpdateSleepLogRequest where
  startAt : Option GoTime
  endAt : Option GoTime
  quality : Option Int
  type : Option SleepType
  localTimezone : Option String
deriving DecidableEq, Repr

/-- `SleepLogFilter` (`From`, `To`, `Limit`, `Cursor`). -/
structure SleepLogFilter where
  fromAt : Option Int
  toAt : Option Int
  limit : Int
  cursor : String
deriving DecidableEq, Repr

/-! ### Repository (`internal/repository`)

The database is a list of rows in presentation order; each query is the
pure function the SQL computes. -/

/-- `userRepository.Exists`: a count of matching ids, compared with zero. -/
def UserRepository.userExists (users : List User) (id : Nat) : Bool :=
  users.any (fun u => u.id == id)

/-- `userRepository.GetByID`. -/
def UserRepository.getByID (users : List User) (id : Nat) : Option User :=
  users.find? (fun u => u.id == id)

/-- `sleepLogRepository.GetByID`: `ErrNotFound` when the id is absent. -/
def SleepLogRepository.getByID (store : List SleepLog) (id : Nat) :
    Except DomainError SleepLog :=
  match store.find? (fun l => l.id == id) with
  | some l => .ok l
  | none => .error .notFound

/-- `sleepLogRepository.GetByClientRequestID`: first row of the user with
the token; absence is not an error. -/
def SleepLogRepository.getByClientRequestID (store : List SleepLog) (userId : Nat)
    (token : String) : Option SleepLog :=
  store.find? (fun l => l.userId == userId && l.clientRequestId == some token)

/-- `sleepLogRepository.HasOverlap`: counts the user's rows whose half-open
interval intersects the candidate; both branches of the type switch add
the same `type = CORE` restriction, so only existing CORE rows are
candidates for conflict, whatever `sleepType` is. -/
def SleepLogRepository.hasOverlap (store : List SleepLog) (userId : Nat)
    (startAt endAt : Int) (sleepType : SleepType) : Bool :=
  let conflicting := store.filter (fun l =>
    l.userId == userId && decide (l.startAt < endAt) && decide (l.endAt > startAt)
      && (if sleepType = SleepType.core then l.type == SleepType.core
          else l.type == SleepType.core))
  decide (0 < conflicting.length)

/-- Modelled from the spec: `HasOverlapExcluding`, used by the update path,
is not in the provided sources (only its caller and its test mock are);
§4.2 defines it as the type-agnostic half-open interval check over the
user's sessions, excluding the session being updated — which is also what
the in-repo test mock computes. -/
def SleepLogRepository.hasOverlapExcluding (store : List SleepLog) (userId excludeId : Nat)
    (startAt endAt : Int) (_sleepType : SleepType) : Bool :=
  store.any (fun l =>
    l.userId == userId && l.id != excludeId
      && decide (l.startAt < endAt) && decide (l.endAt > startAt))

/-- `sleepLogRepository.Create`: insert the new row. -/
def SleepLogRepository.createRow (store : List SleepLog) (log : SleepLog) :
    List SleepLog :=
  store ++ [log]

/-- Modelled from the spec: the repository `Update` write is not in the
provided sources; per §4.4 step 7 (and the test mock) it replaces the
stored row bearing the same id. -/
def SleepLogRepository.updateRow (store : List SleepLog) (log : SleepLog) :
    List SleepLog :=
  store.map (fun l => if l.id == log.id then log else l)

/-- The listing query's user and date restrictions
(`user_id = ?`, `start_at >= From`, `start_at <= To`). -/
def listBasePred (userId : Nat) (filter : SleepLogFilter) (l : SleepLog) : Bool :=
  l.userId == userId
    && (match filter.fromAt with | some f => decide (f ≤ l.startAt) | none => true)
    && (match filter.toAt with | some t => decide (l.startAt ≤ t) | none => true)

/-- The listing query's full WHERE predicate: the base restrictions, plus
the cursor position condition when a non-empty cursor string decodes — a
failed decode silently skips the cursor condition. -/
def listPred (userId : Nat) (filter : SleepLogFilter) : SleepLog → Bool :=
  if filter.cursor ≠ "" then
    match DecodeCursor filter.cursor with
    | .ok (some cur) => fun l => listBasePred userId filter l
        && (decide (l.startAt < cur.startAt)
            || (decide (l.startAt = cur.startAt) && decide (l.id < cur.id)))
    | _ => listBasePred userId filter
  else listBasePred userId filter

/-- Order in which the query presents rows: `start_at DESC` — the query has
no secondary sort key, so rows with equal `start_at` keep the database's
presentation order. -/
def startDescSort (rows : List SleepLog) : List SleepLog :=
  List.insertionSort (fun a b => b.startAt ≤ a.startAt) rows

/-- `sleepLogRepository.List`: the rows passing the WHERE predicate, ordered
by `start_at DESC`, truncated to `limit + 1` rows. -/
def SleepLogRepository.list (store : List SleepLog) (userId : Nat)
    (filter : SleepLogFilter) : List SleepLog :=
  (startDescSort (store.filter (listPred userId filter))).take
    (NormalizeLimit filter.limit + 1)

/-! ### Service (`internal/service/sleep_log_service.go`) -/

/-- `sleepLogService.Create`: user lookup, timezone resolution, UTC
normalization, idempotent replay, overlap check, insert. Returns the
outcome (`(log, isExisting)` or the domain error) together with the
resulting store; `newId` and `now` stand for the row id and creation
timestamp the database assigns at insert. -/
def SleepLogService.create (users : List User) (store : List SleepLog) (userId : Nat)
    (req : CreateSleepLogRequest) (newId : Nat) (now : Int) :
    Except DomainError (SleepLog × Bool) × List SleepLog :=
  match UserRepository.getByID users userId with
  | none => (.error .notFound, store)
  | some user =>
    let localTZ0 :=
      match req.localTimezone with
      | some tz => if tz ≠ "" then tz else user.timezone
      | none => user.timezone
    let localTZ := if localTZ0 = "" then "UTC" else localTZ0
    let startUTC := req.startAt.utc.instant
    let endUTC := req.endAt.utc.instant
    let idem :=
      match req.clientRequestId with
      | some t => if t ≠ "" then SleepLogRepository.getByClientRequestID store userId t
                  else none
      | none => none
    match idem with
    | some existing => (.ok (existing, true), store)
    | none =>
      if SleepLogRepository.hasOverlap store userId startUTC endUTC req.type then
        (.error .overlappingSleep, store)
      else
        let log : SleepLog :=
          { id := newId, userId := userId, startAt := startUTC, endAt := endUTC,
            quality := req.quality, type := req.type, localTimezone := localTZ,
            clientRequestId := req.clientRequestId, createdAt := now }
        (.ok (log, false), SleepLogRepository.createRow store log)

/-- The partial merge of `sleepLogService.Update`: apply exactly the fields
present in the request onto the stored record; an explicitly empty
`local_timezone` string is skipped (no change). -/
def SleepLogService.mergeUpdate (log0 : SleepLog) (req : UpdateSleepLogRequest) :
    SleepLog :=
  let log1 : SleepLog := match req.startAt with
    | some t => { log0 with startAt := t.utc.instant }
    | none => log0
  let log2 : SleepLog := match req.endAt with
    | some t => { log1 with endAt := t.utc.instant }
    | none => log1
  let log3 : SleepLog := match req.quality with
    | some q => { log2 with quality := q }
    | none => log2
  let log4 : SleepLog := match req.type with
    | some ty => { log3 with type := ty }
    | none => log3
  match req.localTimezone with
  | some tz => if tz ≠ "" then { log4 with localTimezone := tz } else log4
  | none => log4

/-- `sleepLogService.Update`: user existence, fetch, ownership, partial
merge, `end_at > start_at` re-validation, self-excluding overlap check,
write. Returns the outcome together with the resulting store. -/
def SleepLogService.update (users : List User) (store : List SleepLog)
    (userId logId : Nat) (req : UpdateSleepLogRequest) :
    Except DomainError SleepLog × List SleepLog :=
  if !(UserRepository.userExists users userId) then (.error .notFound, store)
  else
    match SleepLogRepository.getByID store logId with
    | .error e => (.error e, store)
    | .ok log0 =>
      if log0.userId ≠ userId then (.error .notFound, store)
      else
        let merged := SleepLogService.mergeUpdate log0 req
        if merged.endAt ≤ merged.startAt then (.error .invalidInput, store)
        else if SleepLogRepository.hasOverlapExcluding store userId logId
            merged.startAt merged.endAt merged.type then
          (.error .overlappingSleep, store)
        else (.ok merged, SleepLogRepository.updateRow store merged)

/-! ### Helper lemmas about the update path -/

theorem update_ok_branch (users : List User) (store : List SleepLog)
    (userId logId : Nat) (req : UpdateSleepLogRequest) (log0 : SleepLog)
    (hu : UserRepository.userExists users userId = true)
    (hfind : SleepLogRepository.getByID store logId = .ok log0)
    (hown : log0.userId = userId) :
    SleepLogService.update users store userId logId req
      = (let merged := SleepLogService.mergeUpdate log0 req
         if merged.endAt ≤ merged.startAt then (.error .invalidInput, store)
         else if SleepLogRepository.hasOverlapExcluding store userId logId
             merged.startAt merged.endAt merged.type then
           (.error .overlappingSleep, store)
         else (.ok merged, SleepLogRepository.updateRow store merged)) := by
  unfold SleepLogService.update
  rw [hu, hfind]
  simp [hown]

theorem update_error_store (users : List User) (store : List SleepLog)
    (userId logId : Nat) (req : UpdateSleepLogRequest) :
    (SleepLogService.update users store userId logId req).2 = store
    ∨ (∃ log, SleepLogService.update users store userId logId req
        = (.ok log, SleepLogRepository.updateRow store log)) := by
  unfold SleepLogService.update
  split
  · exact Or.inl rfl
  · split
    · exact Or.inl rfl
    · split
      · exact Or.inl rfl
      · dsimp only
        split
        · exact Or.inl rfl
        · split
          · exact Or.inl rfl
          · exact Or.inr ⟨_, rfl⟩

theorem update_ok_inv (users : List User) (store : List SleepLog)
    (userId logId : Nat) (req : UpdateSleepLogRequest) (log1 : SleepLog)
    (store1 : List SleepLog)
    (h : SleepLogService.update users store userId logId req = (.ok log1, store1)) :
    UserRepository.userExists users userId = true
    ∧ ∃ log0, SleepLogRepository.getByID store logId = .ok log0
      ∧ log0.userId = userId
      ∧ log1 = SleepLogService.mergeUpdate log0 req
      ∧ store1 = SleepLogRepository.updateRow store log1 := by
  unfold SleepLogService.update at h
  split at h
  · simp at h
  · next hexists =>
    have hu : UserRepository.userExists users userId = true := by
      simpa using hexists
    refine ⟨hu, ?_⟩
    split at h
    · simp at h
    · next log0 hfind =>
      split at h
      · simp at h
      · next hown =>
        dsimp only at h
        split at h
        · simp at h
        · split at h
          · simp at h
          · have h1 := congrArg Prod.fst h
            have h2 := congrArg Prod.snd h
            simp only [Except.ok.injEq] at h1 h2
            exact ⟨log0, hfind, by omega, h1.symm, by rw [← h2, h1]⟩

theorem mergeUpdate_fields (log0 : SleepLog) (req : UpdateSleepLogRequest) :
    (SleepLogService.mergeUpdate log0 req).id = log0.id
    ∧ (SleepLogService.mergeUpdate log0 req).userId = log0.userId
    ∧ (SleepLogService.mergeUpdate log0 req).clientRequestId = log0.clientRequestId
    ∧ (SleepLogService.mergeUpdate log0 req).createdAt = log0.createdAt
    ∧ (SleepLogService.mergeUpdate log0 req).startAt
        = (match req.startAt with | some t => t.instant | none => log0.startAt)
    ∧ (SleepLogService.mergeUpdate log0 req).endAt
        = (match req.endAt with | some t => t.instant | none => log0.endAt)
    ∧ (SleepLogService.mergeUpdate log0 req).quality
        = (match req.quality with | some q => q | none => log0.quality)
    ∧ (SleepLogService.mergeUpdate log0 req).type
        = (match req.type with | some ty => ty | none => log0.type)
    ∧ (SleepLogService.mergeUpdate log0 req).localTimezone
        = (match req.localTimezone with
            | some tz => if tz ≠ "" then tz else log0.localTimezone
            | none => log0.localTimezone) := by
  obtain ⟨s0, e0, q0, t0, z0⟩ := req
  cases s0 <;> cases e0 <;> cases q0 <;> cases t0 <;> cases z0 <;>
    simp [SleepLogService.mergeUpdate, GoTime.utc] <;> split <;> simp

/-! ### Claim C3: timezone-safe rendering -/

/-- Claim C3: for every session and every zone database, rendering the
session to a response is a total function (no error path exists), returns
the stored `local_timezone` string unchanged, renders the local times using
UTC when the string is empty or does not resolve to a known zone, and the
elapsed duration `LocalEndAt − LocalStartAt` equals `EndAt − StartAt`
exactly — an instant subtraction unaffected by the zone chosen. -/
theorem claim3_rendering (resolve : String → Option GoLocation) (s : SleepLog) :
    (SleepLog.toResponse resolve s).localTimezone = s.localTimezone
    ∧ GoTime.sub (SleepLog.toResponse resolve s).localEndAt
        (SleepLog.toResponse resolve s).localStartAt = s.endAt - s.startAt
    ∧ ((s.localTimezone = "" ∨ resolve s.localTimezone = none) →
        (SleepLog.toResponse resolve s).localStartAt.zone = GoLocation.utc
        ∧ (SleepLog.toResponse resolve s).localEndAt.zone = GoLocation.utc)
    ∧ (SleepLog.toResponse resolve s).startAt = s.startAt
    ∧ (SleepLog.toResponse resolve s).endAt = s.endAt := by
  refine ⟨rfl, rfl, ?_, rfl, rfl⟩
  intro h
  unfold SleepLog.toResponse GoTime.inLoc
  dsimp only
  rcases h with h | h
  · simp [h]
  · by_cases he : s.localTimezone = ""
    · simp [he]
    · simp [he, h]

/-- Witness for C3 at a session whose zone string resolves to nothing:
rendering falls back to UTC. -/
theorem claim3_rendering_witness :
    (SleepLog.toResponse (fun _ => none)
        ⟨1, 2, 100, 200, 8, .core, "Bad/Zone", none, 0⟩).localStartAt.zone
      = GoLocation.utc
    ∧ (SleepLog.toResponse (fun _ => none)
        ⟨1, 2, 100, 200, 8, .core, "Bad/Zone", none, 0⟩).localEndAt.zone
      = GoLocation.utc :=
  (claim3_rendering (fun _ => none) ⟨1, 2, 100, 200, 8, .core, "Bad/Zone", none, 0⟩).2.2.1
    (Or.inr rfl)

/-! ### Claim C4: merged-record invariant re-check -/

/-- Claim C4: when the record obtained by merging the request's fields onto
the stored one has `end_at ≤ start_at`, Update fails with `InvalidInput` —
whatever other fields the request carries — and the store is returned
untouched, for every store (in particular, the outcome is `InvalidInput`
even on stores where the overlap check would also fire, so the failure
precedes the overlap check and the write). -/
theorem claim4_update_invalid (users : List User) (store : List SleepLog)
    (userId logId : Nat) (req : UpdateSleepLogRequest) (log0 : SleepLog)
    (hu : UserRepository.userExists users userId = true)
    (hfind : SleepLogRepository.getByID store logId = .ok log0)
    (hown : log0.userId = userId)
    (hbad : (SleepLogService.mergeUpdate log0 req).endAt
        ≤ (SleepLogService.mergeUpdate log0 req).startAt) :
    SleepLogService.update users store userId logId req
      = (.error .invalidInput, store) := by
  rw [update_ok_branch users store userId logId req log0 hu hfind hown]
  dsimp only
  rw [if_pos hbad]

/-- Witness for C4: shrinking `end_at` below the stored `start_at` while
also updating `quality` in the same request fails with `InvalidInput` and
changes nothing, even though another stored session overlaps the result. -/
theorem claim4_update_invalid_witness :
    SleepLogService.update [⟨7, "UTC", 0⟩]
      [⟨3, 7, 10, 20, 5, .core, "UTC", none, 0⟩,
       ⟨4, 7, 0, 30, 5, .core, "UTC", none, 0⟩] 7 3
      ⟨none, some ⟨5, .utc⟩, some 9, none, none⟩
      = (.error .invalidInput,
         [⟨3, 7, 10, 20, 5, .core, "UTC", none, 0⟩,
          ⟨4, 7, 0, 30, 5, .core, "UTC", none, 0⟩]) :=
  claim4_update_invalid _ _ _ _ _ ⟨3, 7, 10, 20, 5, .core, "UTC", none, 0⟩
    (by decide) (by decide) (by decide) (by decide)

/-! ### Claim C7: partial update frame -/

/-- Claim C7: a successful update is a partial update — every omitted field
keeps its stored value, a `local_timezone` supplied as the empty string is
treated as no change, and `id`, `user_id`, `client_request_id` and
`created_at` are never altered. -/
theorem claim7_partial_update (users : List User) (store : List SleepLog)
    (userId logId : Nat) (req : UpdateSleepLogRequest) (log0 log1 : SleepLog)
    (store1 : List SleepLog)
    (hfind : SleepLogRepository.getByID store logId = .ok log0)
    (hupd : SleepLogService.update users store userId logId req = (.ok log1, store1)) :
    log1.id = log0.id
    ∧ log1.userId = log0.userId
    ∧ log1.clientRequestId = log0.clientRequestId
    ∧ log1.createdAt = log0.createdAt
    ∧ log1.startAt = (match req.startAt with | some t => t.instant | none => log0.startAt)
    ∧ log1.endAt = (match req.endAt with | some t => t.instant | none => log0.endAt)
    ∧ log1.quality = (match req.quality with | some q => q | none => log0.quality)
    ∧ log1.type = (match req.type with | some ty => ty | none => log0.type)
    ∧ log1.localTimezone = (match req.localTimezone with
        | some tz => if tz ≠ "" then tz else log0.localTimezone
        | none => log0.localTimezone) := by
  obtain ⟨_, log0', hfind', _, hmerge, _⟩ :=
    update_ok_inv users store userId logId req log1 store1 hupd
  rw [hfind] at hfind'
  injection hfind' with he
  rw [hmerge, ← he]
  exact mergeUpdate_fields log0 req

/-- Witness for C7: updating only `quality` with an explicitly empty
`local_timezone` keeps the stored zone string, token, id and timestamps. -/
theorem claim7_partial_update_witness :
    (⟨3, 7, 0, 10, 9, SleepType.core, "Europe/Warsaw", some "tok", 42⟩ : SleepLog).localTimezone
      = (⟨3, 7, 0, 10, 5, SleepType.core, "Europe/Warsaw", some "tok", 42⟩ : SleepLog).localTimezone
    ∧ (⟨3, 7, 0, 10, 9, SleepType.core, "Europe/Warsaw", some "tok", 42⟩ : SleepLog).clientRequestId
      = (⟨3, 7, 0, 10, 5, SleepType.core, "Europe/Warsaw", some "tok", 42⟩ : SleepLog).clientRequestId :=
  ⟨(claim7_partial_update [⟨7, "UTC", 0⟩]
      [⟨3, 7, 0, 10, 5, .core, "Europe/Warsaw", some "tok", 42⟩] 7 3
      ⟨none, none, some 9, none, some ""⟩
      ⟨3, 7, 0, 10, 5, .core, "Europe/Warsaw", some "tok", 42⟩
      ⟨3, 7, 0, 10, 9, .core, "Europe/Warsaw", some "tok", 42⟩
      [⟨3, 7, 0, 10, 9, .core, "Europe/Warsaw", some "tok", 42⟩]
      (by decide) (by decide)).2.2.2.2.2.2.2.2,
   (claim7_partial_update [⟨7, "UTC", 0⟩]
      [⟨3, 7, 0, 10, 5, .core, "Europe/Warsaw", some "tok", 42⟩] 7 3
      ⟨none, none, some 9, none, some ""⟩
      ⟨3, 7, 0, 10, 5, .core, "Europe/Warsaw", some "tok", 42⟩
      ⟨3, 7, 0, 10, 9, .core, "Europe/Warsaw", some "tok", 42⟩
      [⟨3, 7, 0, 10, 9, .core, "Europe/Warsaw", some "tok", 42⟩]
      (by decide) (by decide)).2.2.1⟩

/-! ### Claim C8: ownership mismatches fold into NotFound -/

/-- Claim C8: for an existing user, updating a session owned by a different
user yields exactly the `NotFound` error — the same outcome as updating a
session id that does not exist at all — with the store untouched in both
cases. -/
theorem claim8_ownership_notfound (users : List User) (store : List SleepLog)
    (userId logId : Nat) (req : UpdateSleepLogRequest)
    (hu : UserRepository.userExists users userId = true) :
    (∀ log0, SleepLogRepository.getByID store logId = .ok log0 →
      log0.userId ≠ userId →
      SleepLogService.update users store userId logId req = (.error .notFound, store))
    ∧ (SleepLogRepository.getByID store logId = .error .notFound →
      SleepLogService.update users store userId logId req
        = (.error .notFound, store)) := by
  constructor
  · intro log0 hfind hown
    unfold SleepLogService.update
    rw [hu, hfind]
    simp [hown]
  · intro hmiss
    unfold SleepLogService.update
    rw [hu, hmiss]
    simp

/-- Witness for C8: a session of user 8 is NotFound to user 7, exactly as a
missing session id is. -/
theorem claim8_ownership_notfound_witness :
    SleepLogService.update [⟨7, "UTC", 0⟩] [⟨3, 8, 0, 10, 5, .core, "UTC", none, 0⟩]
      7 3 ⟨none, none, none, none, none⟩
      = (.error .notFound, [⟨3, 8, 0, 10, 5, .core, "UTC", none, 0⟩])
    ∧ SleepLogService.update [⟨7, "UTC", 0⟩] [⟨3, 8, 0, 10, 5, .core, "UTC", none, 0⟩]
      7 99 ⟨none, none, none, none, none⟩
      = (.error .notFound, [⟨3, 8, 0, 10, 5, .core, "UTC", none, 0⟩]) :=
  ⟨(claim8_ownership_notfound [⟨7, "UTC", 0⟩] [⟨3, 8, 0, 10, 5, .core, "UTC", none, 0⟩]
      7 3 ⟨none, none, none, none, none⟩ (by decide)).1
      ⟨3, 8, 0, 10, 5, .core, "UTC", none, 0⟩ (by decide) (by decide),
   (claim8_ownership_notfound [⟨7, "UTC", 0⟩] [⟨3, 8, 0, 10, 5, .core, "UTC", none, 0⟩]
      7 99 ⟨none, none, none, none, none⟩ (by decide)).2 (by decide)⟩

/-! ### Claim C10: update writes only after every check passes -/

/-- Claim C10: on every failing update outcome — NotFound, InvalidInput or
the overlap conflict — the returned store is exactly the store the request
started from: the persistence write happens only on the success path. -/
theorem claim10_update_atomic (users : List User) (store : List SleepLog)
    (userId logId : Nat) (req : UpdateSleepLogRequest) (e : DomainError)
    (h : (SleepLogService.update users store userId logId req).1 = .error e) :
    (SleepLogService.update users store userId logId req).2 = store := by
  rcases update_error_store users store userId logId req with h2 | ⟨log, heq⟩
  · exact h2
  · rw [heq] at h
    simp at h

/-- Witness for C10 at a failing update (missing session id). -/
theorem claim10_update_atomic_witness :
    (SleepLogService.update [⟨7, "UTC", 0⟩] [⟨3, 7, 0, 10, 5, .core, "UTC", none, 0⟩]
      7 99 ⟨none, none, none, none, none⟩).2
      = [⟨3, 7, 0, 10, 5, .core, "UTC", none, 0⟩] :=
  claim10_update_atomic [⟨7, "UTC", 0⟩] [⟨3, 7, 0, 10, 5, .core, "UTC", none, 0⟩]
    7 99 ⟨none, none, none, none, none⟩ .notFound (by decide)

/-! ### Helper lemmas about the create path -/

theorem find?_append_none {α} (p : α → Bool) (l1 l2 : List α)
    (h : l1.find? p = none) : (l1 ++ l2).find? p = l2.find? p := by
  induction l1 with
  | nil => rfl
  | cons a t ih =>
    cases hp : p a with
    | true => simp [List.find?, hp] at h
    | false =>
      simp only [List.cons_append, List.find?, hp] at h ⊢
      exact ih h

theorem find?_cons_self {α} (p : α → Bool) (a : α) (l : List α) (h : p a = true) :
    (a :: l).find? p = some a := by
  simp [List.find?, h]

theorem create_ok_new_inv (users : List User) (store : List SleepLog) (userId : Nat)
    (req : CreateSleepLogRequest) (newId : Nat) (now : Int) (L : SleepLog)
    (store1 : List SleepLog)
    (h : SleepLogService.create users store userId req newId now
      = (.ok (L, false), store1)) :
    (∃ user, UserRepository.getByID users userId = some user)
    ∧ (∀ t, req.clientRequestId = some t → t ≠ "" →
        SleepLogRepository.getByClientRequestID store userId t = none)
    ∧ L.id = newId ∧ L.userId = userId
    ∧ L.clientRequestId = req.clientRequestId
    ∧ store1 = store ++ [L] := by
  unfold SleepLogService.create at h
  split at h
  · simp at h
  · next user huser =>
    dsimp only at h
    split at h
    · simp at h
    · next hidem =>
      split at h
      · simp at h
      · have h1 := congrArg Prod.fst h
        have h2 := congrArg Prod.snd h
        simp only [Except.ok.injEq, Prod.mk.injEq] at h1 h2
        obtain ⟨hL, -⟩ := h1
        refine ⟨⟨user, huser⟩, ?_, ?_, ?_, ?_, ?_⟩
        · intro t hct hne
          rw [hct] at hidem
          simpa [hne] using hidem
        · rw [← hL]
        · rw [← hL]
        · rw [← hL]
        · rw [← h2, ← hL]
          rfl

theorem create_replay (users : List User) (store store1 : List SleepLog)
    (userId : Nat) (req req' : CreateSleepLogRequest) (newId newId' : Nat)
    (now now' : Int) (t : String) (L : SleepLog)
    (htok : req.clientRequestId = some t) (hne : t ≠ "")
    (htok' : req'.clientRequestId = some t)
    (hcall1 : SleepLogService.create users store userId req newId now
      = (.ok (L, false), store1)) :
    SleepLogService.create users store1 userId req' newId' now'
      = (.ok (L, true), store1) := by
  obtain ⟨⟨user, huser⟩, hnone, hLid, hLu, hLt, hstore1⟩ :=
    create_ok_new_inv users store userId req newId now L store1 hcall1
  have hfound : SleepLogRepository.getByClientRequestID store1 userId t = some L := by
    rw [hstore1]
    unfold SleepLogRepository.getByClientRequestID
    rw [find?_append_none _ _ _ (hnone t htok hne)]
    apply find?_cons_self
    simp [hLu, hLt, htok]
  unfold SleepLogService.create
  rw [huser]
  simp only [Option.some.injEq]
  rw [htok']
  simp [hne, hfound]

theorem create_fresh_token (users : List User) (store : List SleepLog) (userId : Nat)
    (req : CreateSleepLogRequest) (newId : Nat) (now : Int) (user : User) (t : String)
    (huser : UserRepository.getByID users userId = some user)
    (htok : req.clientRequestId = some t) (hne : t ≠ "")
    (hnocollide : ∀ l ∈ store, l.clientRequestId = some t → l.userId ≠ userId)
    (hnoov : SleepLogRepository.hasOverlap store userId req.startAt.utc.instant
      req.endAt.utc.instant req.type = false) :
    ∃ l, SleepLogService.create users store userId req newId now
        = (.ok (l, false), store ++ [l])
      ∧ l.userId = userId ∧ l.clientRequestId = some t := by
  have hlookup : SleepLogRepository.getByClientRequestID store userId t = none := by
    unfold SleepLogRepository.getByClientRequestID
    apply List.find?_eq_none.mpr
    intro l hl hp
    simp only [Bool.and_eq_true, beq_iff_eq, Option.some.injEq] at hp
    exact hnocollide l hl (by rw [hp.2]) hp.1
  unfold SleepLogService.create
  rw [huser]
  dsimp only
  rw [htok]
  simp only [hne, if_true, ne_eq, not_false_eq_true, if_pos]
  rw [hlookup, hnoov]
  simp only [Bool.false_eq_true, if_false]
  exact ⟨_, rfl, rfl, rfl⟩

theorem create_no_token (users : List User) (store : List SleepLog) (userId : Nat)
    (req : CreateSleepLogRequest) (newId : Nat) (now : Int)
    (hempty : req.clientRequestId = none ∨ req.clientRequestId = some "") :
    ∀ L b store1, SleepLogService.create users store userId req newId now
        = (.ok (L, b), store1) →
      b = false ∧ store1 = store ++ [L] := by
  intro L b store1 h
  unfold SleepLogService.create at h
  split at h
  · simp at h
  · next user huser =>
    dsimp only at h
    have hidem0 : (match req.clientRequestId with
        | some tok => if tok ≠ "" then
            SleepLogRepository.getByClientRequestID store userId tok else none
        | none => none) = none := by
      rcases hempty with he | he <;> simp [he]
    split at h
    · next existing hidem =>
      rw [hidem0] at hidem
      simp at hidem
    · split at h
      · simp at h
      · have h1 := congrArg Prod.fst h
        have h2 := congrArg Prod.snd h
        simp only [Except.ok.injEq, Prod.mk.injEq] at h1 h2
        obtain ⟨hL, hb⟩ := h1
        exact ⟨hb.symm, by rw [← h2, ← hL]; rfl⟩

theorem hasOverlap_iff (store : List SleepLog) (userId : Nat) (s e : Int)
    (ty : SleepType) :
    SleepLogRepository.hasOverlap store userId s e ty = true
      ↔ ∃ l ∈ store, l.userId = userId ∧ l.type = SleepType.core
          ∧ l.startAt < e ∧ l.endAt > s := by
  unfold SleepLogRepository.hasOverlap
  dsimp only
  rw [decide_eq_true_iff, List.length_pos_iff_exists_mem]
  constructor
  · rintro ⟨l, hl⟩
    rw [List.mem_filter] at hl
    obtain ⟨hmem, hp⟩ := hl
    rw [ite_self] at hp
    simp only [Bool.and_eq_true, beq_iff_eq, decide_eq_true_eq] at hp
    exact ⟨l, hmem, hp.1.1.1, hp.2, hp.1.1.2, hp.1.2⟩
  · rintro ⟨l, hmem, h1, h2, h3, h4⟩
    refine ⟨l, ?_⟩
    rw [List.mem_filter]
    refine ⟨hmem, ?_⟩
    rw [ite_self]
    simp [h1, h2, h3, h4]

/-! ### Concrete fixtures used by witnesses and counterexamples -/

/-- A user whose default timezone is Prague. -/
def alice : User := ⟨1, "Europe/Prague", 0⟩

/-- A second user. -/
def bob : User := ⟨2, "UTC", 0⟩

/-- The user directory of the examples. -/
def usersAB : List User := [alice, bob]

/-- A NAP session of Alice over the interval `[0, 10)`. -/
def napA : SleepLog := ⟨10, 1, 0, 10, 5, .nap, "UTC", none, 0⟩

/-- A CORE session of Alice over the interval `[20, 30)`. -/
def coreA : SleepLog := ⟨11, 1, 20, 30, 7, .core, "UTC", none, 0⟩

/-- Alice's stored sessions. -/
def storeA : List SleepLog := [napA, coreA]

/-- A CORE create request over `[5, 15)`: intersects only the NAP. -/
def reqOverNap : CreateSleepLogRequest := ⟨⟨5, .utc⟩, ⟨15, .utc⟩, 7, .core, none, none⟩

/-- A NAP create request over `[25, 35)`: intersects the CORE. -/
def reqOverCore : CreateSleepLogRequest := ⟨⟨25, .utc⟩, ⟨35, .utc⟩, 6, .nap, none, none⟩

/-- A tokenised create request. -/
def reqTok : CreateSleepLogRequest :=
  ⟨⟨100, .utc⟩, ⟨200, .utc⟩, 8, .core, some "req-123", none⟩

/-- A different payload reusing the same token. -/
def reqTokOther : CreateSleepLogRequest :=
  ⟨⟨0, .utc⟩, ⟨5, .utc⟩, 3, .nap, some "req-123", some "UTC"⟩

/-- The row the first tokenised create stores for Alice. -/
def logTok : SleepLog := ⟨21, 1, 100, 200, 8, .core, "Europe/Prague", some "req-123", 500⟩

/-- A create request without a client token. -/
def reqNoTok : CreateSleepLogRequest := ⟨⟨100, .utc⟩, ⟨200, .utc⟩, 8, .nap, none, none⟩

/-! ### Claim C1: overlap admission policy on create -/

/-- Claim C1 counterexample: Alice's stored NAP `[0, 10)` intersects the
CORE candidate `[5, 15)` under the half-open definition, yet Create admits
the request and persists the new row — the overlap check restricts its scan
to existing CORE rows, so the claimed type-blind rejection does not hold. -/
theorem claim1_counterexample :
    (napA ∈ storeA ∧ napA.userId = 1 ∧ napA.startAt < 15 ∧ napA.endAt > 5)
    ∧ SleepLogService.create usersAB storeA 1 reqOverNap 12 100
        = (.ok (⟨12, 1, 5, 15, 7, .core, "Europe/Prague", none, 100⟩, false),
           storeA ++ [⟨12, 1, 5, 15, 7, .core, "Europe/Prague", none, 100⟩]) := by
  decide

/-- Claim C1 (amended): for a create request that is not resolved as an
idempotent replay, the engine rejects with the overlap conflict and
persists nothing precisely when the candidate half-open interval
`[start, end)` intersects an existing CORE session of the same user —
whatever the candidate's own type; candidates intersecting only NAP
sessions, or merely touching at an endpoint, are admitted. -/
theorem claim1_overlap_amended (users : List User) (store : List SleepLog)
    (userId : Nat) (req : CreateSleepLogRequest) (newId : Nat) (now : Int)
    (user : User)
    (huser : UserRepository.getByID users userId = some user)
    (hnoreplay : ∀ t, req.clientRequestId = some t → t ≠ "" →
      SleepLogRepository.getByClientRequestID store userId t = none) :
    ((SleepLogService.create users store userId req newId now).1
        = .error .overlappingSleep
      ∧ (SleepLogService.create users store userId req newId now).2 = store)
    ↔ ∃ l ∈ store, l.userId = userId ∧ l.type = SleepType.core
        ∧ l.startAt < req.endAt.instant ∧ l.endAt > req.startAt.instant := by
  have hidem0 : (match req.clientRequestId with
      | some tok => if tok ≠ "" then
          SleepLogRepository.getByClientRequestID store userId tok else none
      | none => none) = none := by
    cases hc : req.clientRequestId with
    | none => rfl
    | some tok =>
      by_cases ht : tok = ""
      · simp [ht]
      · simp [ht, hnoreplay tok hc ht]
  have hoiff : SleepLogRepository.hasOverlap store userId req.startAt.utc.instant
        req.endAt.utc.instant req.type = true
      ↔ ∃ l ∈ store, l.userId = userId ∧ l.type = SleepType.core
          ∧ l.startAt < req.endAt.instant ∧ l.endAt > req.startAt.instant :=
    hasOverlap_iff store userId req.startAt.utc.instant req.endAt.utc.instant req.type
  unfold SleepLogService.create
  rw [huser]
  dsimp only
  rw [hidem0]
  by_cases hov : SleepLogRepository.hasOverlap store userId req.startAt.utc.instant
      req.endAt.utc.instant req.type = true
  · rw [if_pos hov]
    constructor
    · intro _
      exact hoiff.1 hov
    · intro _
      exact ⟨rfl, rfl⟩
  · rw [if_neg hov]
    constructor
    · intro ⟨hl, _⟩
      simp at hl
    · intro hex
      exact absurd (hoiff.2 hex) hov

/-- Witness for the amended C1: a NAP candidate `[25, 35)` intersecting
Alice's CORE `[20, 30)` is rejected with the overlap conflict and nothing
is persisted. -/
theorem claim1_overlap_amended_witness :
    (SleepLogService.create usersAB storeA 1 reqOverCore 13 100).1
        = .error .overlappingSleep
    ∧ (SleepLogService.create usersAB storeA 1 reqOverCore 13 100).2 = storeA :=
  (claim1_overlap_amended usersAB storeA 1 reqOverCore 13 100 alice
      (by decide) (by intro t ht; simp [reqOverCore] at ht)).2
    ⟨coreA, by decide, by decide, by decide, by decide, by decide⟩

/-! ### Claim C2: idempotent replay by client request token -/

/-- Claim C2: (1) after a create with a non-empty token stores a row,
repeating the call for the same user with the same token and any payload
returns exactly that stored row, flagged "already existed", and writes
nothing; (2) a different user reusing the same token (no row of that user
carries it) creates an independent new row; (3) with the token absent or
empty, no idempotency applies: a successful create is always a fresh row
appended to the store, never a replay. -/
theorem claim2_idempotent_create :
    (∀ users store store1 userId req req' newId newId' now now' t L,
      req.clientRequestId = some t → t ≠ "" →
      req'.clientRequestId = some t →
      SleepLogService.create users store userId req newId now
        = (.ok (L, false), store1) →
      SleepLogService.create users store1 userId req' newId' now'
        = (.ok (L, true), store1))
    ∧ (∀ users store userId req newId now user t,
      UserRepository.getByID users userId = some user →
      req.clientRequestId = some t → t ≠ "" →
      (∀ l ∈ store, l.clientRequestId = some t → l.userId ≠ userId) →
      SleepLogRepository.hasOverlap store userId req.startAt.utc.instant
        req.endAt.utc.instant req.type = false →
      ∃ l, SleepLogService.create users store userId req newId now
          = (.ok (l, false), store ++ [l])
        ∧ l.userId = userId ∧ l.clientRequestId = some t)
    ∧ (∀ users store userId req newId now,
      (req.clientRequestId = none ∨ req.clientRequestId = some "") →
      ∀ L b store1, SleepLogService.create users store userId req newId now
          = (.ok (L, b), store1) →
        b = false ∧ store1 = store ++ [L]) :=
  ⟨fun users store store1 userId req req' newId newId' now now' t L h1 h2 h3 h4 =>
    create_replay users store store1 userId req req' newId newId' now now' t L h1 h2 h3 h4,
   fun users store userId req newId now user t h1 h2 h3 h4 h5 =>
    create_fresh_token users store userId req newId now user t h1 h2 h3 h4 h5,
   fun users store userId req newId now h1 =>
    create_no_token users store userId req newId now h1⟩

/-- Witness for C2: the concrete replay, cross-user and token-free
scenarios. -/
theorem claim2_idempotent_create_witness :
    (SleepLogService.create usersAB [logTok] 1 reqTokOther 22 501
        = (.ok (logTok, true), [logTok]))
    ∧ (∃ l, SleepLogService.create usersAB [logTok] 2 reqTok 23 502
          = (.ok (l, false), [logTok] ++ [l])
        ∧ l.userId = 2 ∧ l.clientRequestId = some "req-123")
    ∧ (false = false
        ∧ [(⟨31, 1, 100, 200, 8, .nap, "Europe/Prague", none, 600⟩ : SleepLog)]
          = [] ++ [⟨31, 1, 100, 200, 8, .nap, "Europe/Prague", none, 600⟩]) :=
  ⟨claim2_idempotent_create.1 usersAB [] [logTok] 1 reqTok reqTokOther 21 22 500 501
      "req-123" logTok rfl (by decide) rfl (by decide),
   claim2_idempotent_create.2.1 usersAB [logTok] 2 reqTok 23 502 bob "req-123"
      (by decide) rfl (by decide) (by decide) (by decide),
   claim2_idempotent_create.2.2 usersAB [] 1 reqNoTok 31 600 (Or.inl rfl)
      ⟨31, 1, 100, 200, 8, .nap, "Europe/Prague", none, 600⟩ false
      [⟨31, 1, 100, 200, 8, .nap, "Europe/Prague", none, 600⟩] (by decide)⟩

/-! ### Claim C5: cursor codec laws -/

/-- Claim C5 counterexample: `"e30="` is valid base64url of the JSON object
text, yet is not the encoding of any cursor value; decoding it nevertheless
succeeds, yielding a zero-valued cursor instead of a decode error — the
unmarshaller fills absent fields with zero values. -/
theorem claim5_counterexample :
    DecodeCursor "e30=" = .ok (some ⟨0, 0⟩)
    ∧ ¬ ∃ c : Cursor, Cursor.encode c = "e30=" := by
  constructor
  · decide
  · rintro ⟨c, hc⟩
    have h8 := encode_length_ge8 c
    rw [hc] at h8
    have h4 : ("e30=" : String).length = 4 := rfl
    omega

/-- Claim C5 (amended): `decode (encode c) = c` for every cursor value
`{id, start_at}`; decoding the empty string returns `null` (first page)
without error; and a string the base64 decoder rejects surfaces that
decode error. (The error guarantee holds at the base64 layer: a valid
base64 encoding of a JSON object that `encode` never produces — such as
`"e30="` — decodes without error.) -/
theorem claim5_roundtrip_amended :
    (∀ c : Cursor, DecodeCursor (Cursor.encode c) = .ok (some c))
    ∧ DecodeCursor "" = .ok none
    ∧ (∀ s e, b64decodeList s.data = .error e → DecodeCursor s = .error e) :=
  ⟨decode_encode, decode_empty, decode_b64_error⟩

/-- Witness for the amended C5: a concrete round trip and a concrete
rejected garbage string. -/
theorem claim5_roundtrip_amended_witness :
    DecodeCursor (Cursor.encode ⟨5, -7⟩) = .ok (some ⟨5, -7⟩)
    ∧ DecodeCursor "bad!=base64" = .error "illegal base64 data" :=
  ⟨claim5_roundtrip_amended.1 ⟨5, -7⟩,
   claim5_roundtrip_amended.2.2 "bad!=base64" "illegal base64 data" (by decide)⟩

/-! ### Claims C6 and C9: the listing query -/

theorem list_mem_inv (store : List SleepLog) (userId : Nat)
    (filter : SleepLogFilter) (l : SleepLog)
    (h : l ∈ SleepLogRepository.list store userId filter) :
    l ∈ store ∧ listPred userId filter l = true := by
  unfold SleepLogRepository.list startDescSort at h
  have h2 := List.mem_of_mem_take h
  have h3 := (List.perm_insertionSort _ _).mem_iff.1 h2
  exact List.mem_filter.1 h3

theorem listPred_implies_base (userId : Nat) (filter : SleepLogFilter) (l : SleepLog)
    (h : listPred userId filter l = true) : listBasePred userId filter l = true := by
  unfold listPred at h
  split at h
  · cases hdec : DecodeCursor filter.cursor with
    | error e =>
      simp only [hdec] at h
      exact h
    | ok oc =>
      cases oc with
      | none =>
        simp only [hdec] at h
        exact h
      | some cur =>
        simp only [hdec, Bool.and_eq_true] at h
        exact h.1
  · exact h

theorem listBasePred_spec (userId : Nat) (filter : SleepLogFilter) (l : SleepLog)
    (h : listBasePred userId filter l = true) :
    l.userId = userId
    ∧ (∀ f, filter.fromAt = some f → f ≤ l.startAt)
    ∧ (∀ t, filter.toAt = some t → l.startAt ≤ t) := by
  unfold listBasePred at h
  simp only [Bool.and_eq_true, beq_iff_eq] at h
  refine ⟨h.1.1, ?_, ?_⟩
  · intro f hf
    have := h.1.2
    rw [hf] at this
    simpa using this
  · intro t ht
    have := h.2
    rw [ht] at this
    simpa using this

instance : IsTotal SleepLog (fun a b => b.startAt ≤ a.startAt) :=
  ⟨fun a b => Int.le_total b.startAt a.startAt⟩

instance : IsTrans SleepLog (fun a b => b.startAt ≤ a.startAt) :=
  ⟨fun _ _ _ hab hbc => le_trans hbc hab⟩

/-- Claim C6 counterexample: two sessions of the same user share the same
`start_at`; the listing returns them with the smaller id first (the
database's presentation order), so the output is not in the claimed total
order `start_at DESC, id DESC` — the query sorts by `start_at` alone. -/
theorem claim6_counterexample :
    SleepLogRepository.list
        [⟨1, 1, 50, 60, 5, .core, "UTC", none, 0⟩,
         ⟨2, 1, 50, 60, 5, .nap, "UTC", none, 0⟩] 1 ⟨none, none, 0, ""⟩
      = [⟨1, 1, 50, 60, 5, .core, "UTC", none, 0⟩,
         ⟨2, 1, 50, 60, 5, .nap, "UTC", none, 0⟩]
    ∧ ¬ List.Pairwise
        (fun x y : SleepLog => x.startAt > y.startAt
          ∨ (x.startAt = y.startAt ∧ x.id > y.id))
        (SleepLogRepository.list
          [⟨1, 1, 50, 60, 5, .core, "UTC", none, 0⟩,
           ⟨2, 1, 50, 60, 5, .nap, "UTC", none, 0⟩] 1 ⟨none, none, 0, ""⟩) := by
  decide

/-- Claim C6 (amended): the listing is sorted by `start_at` descending
(ties in the database's presentation order — no id tie-break is applied);
with a decoding cursor every returned session lies strictly after the
cursor position, i.e. satisfies
`start_at < c.start_at ∨ (start_at = c.start_at ∧ id < c.id)`; every
returned session belongs to the user and passes the date filters; and
whenever the result is not cut off by the `limit + 1` truncation, every
stored row passing the WHERE predicate is returned. -/
theorem claim6_list_amended (store : List SleepLog) (userId : Nat)
    (filter : SleepLogFilter) :
    List.Pairwise (fun a b => b.startAt ≤ a.startAt)
        (SleepLogRepository.list store userId filter)
    ∧ (∀ cur, DecodeCursor filter.cursor = .ok (some cur) →
        ∀ l ∈ SleepLogRepository.list store userId filter,
          l.startAt < cur.startAt ∨ (l.startAt = cur.startAt ∧ l.id < cur.id))
    ∧ (∀ l ∈ SleepLogRepository.list store userId filter,
        l ∈ store ∧ l.userId = userId
        ∧ (∀ f, filter.fromAt = some f → f ≤ l.startAt)
        ∧ (∀ t, filter.toAt = some t → l.startAt ≤ t))
    ∧ ((SleepLogRepository.list store userId filter).length
          < NormalizeLimit filter.limit + 1 →
        ∀ l ∈ store, listPred userId filter l = true →
          l ∈ SleepLogRepository.list store userId filter) := by
  refine ⟨?_, ?_, ?_, ?_⟩
  · unfold SleepLogRepository.list startDescSort
    exact (List.sorted_insertionSort _ _).sublist (List.take_sublist _ _)
  · intro cur hdec l hl
    obtain ⟨-, hp⟩ := list_mem_inv store userId filter l hl
    have hne : filter.cursor ≠ "" := by
      intro h0
      rw [h0, decode_empty] at hdec
      simp at hdec
    unfold listPred at hp
    rw [if_pos hne, hdec] at hp
    simp only [Bool.and_eq_true, Bool.or_eq_true, decide_eq_true_eq] at hp
    exact hp.2
  · intro l hl
    obtain ⟨hmem, hp⟩ := list_mem_inv store userId filter l hl
    obtain ⟨h1, h2, h3⟩ :=
      listBasePred_spec userId filter l (listPred_implies_base userId filter l hp)
    exact ⟨hmem, h1, h2, h3⟩
  · intro hlen l hmem hp
    unfold SleepLogRepository.list startDescSort at hlen ⊢
    rw [List.length_take] at hlen
    have hle : (List.insertionSort (fun a b => b.startAt ≤ a.startAt)
        (store.filter (listPred userId filter))).length
        ≤ NormalizeLimit filter.limit + 1 := by omega
    rw [List.take_of_length_le hle]
    exact (List.perm_insertionSort _ _).mem_iff.2 (List.mem_filter.2 ⟨hmem, hp⟩)

/-- Witness for the amended C6: a decoded cursor at `{id := 2, start_at :=
50}` restricts a concrete listing, and an untruncated listing is complete. -/
theorem claim6_list_amended_witness :
    (∀ l ∈ SleepLogRepository.list
        [⟨1, 1, 50, 60, 5, .core, "UTC", none, 0⟩,
         ⟨2, 1, 50, 60, 5, .nap, "UTC", none, 0⟩] 1
        ⟨none, none, 0, Cursor.encode ⟨2, 50⟩⟩,
      l.startAt < 50 ∨ (l.startAt = 50 ∧ l.id < 2))
    ∧ (⟨1, 1, 50, 60, 5, .core, "UTC", none, 0⟩ : SleepLog)
        ∈ SleepLogRepository.list
          [⟨1, 1, 50, 60, 5, .core, "UTC", none, 0⟩,
           ⟨2, 1, 50, 60, 5, .nap, "UTC", none, 0⟩] 1 ⟨none, none, 0, ""⟩ :=
  ⟨(claim6_list_amended
      [⟨1, 1, 50, 60, 5, .core, "UTC", none, 0⟩,
       ⟨2, 1, 50, 60, 5, .nap, "UTC", none, 0⟩] 1
      ⟨none, none, 0, Cursor.encode ⟨2, 50⟩⟩).2.1 ⟨2, 50⟩ (decode_encode ⟨2, 50⟩),
   (claim6_list_amended
      [⟨1, 1, 50, 60, 5, .core, "UTC", none, 0⟩,
       ⟨2, 1, 50, 60, 5, .nap, "UTC", none, 0⟩] 1 ⟨none, none, 0, ""⟩).2.2.2
      (by decide) ⟨1, 1, 50, 60, 5, .core, "UTC", none, 0⟩ (by decide) (by decide)⟩

/-- Claim C9: a cursor string that fails to decode does not surface an
error to the caller — the cursor condition is silently skipped and the
query behaves exactly as if no cursor had been supplied. -/
theorem claim9_bad_cursor_ignored (store : List SleepLog) (userId : Nat)
    (filter : SleepLogFilter) (e : String)
    (hdec : DecodeCursor filter.cursor = .error e) :
    SleepLogRepository.list store userId filter
      = SleepLogRepository.list store userId
          ⟨filter.fromAt, filter.toAt, filter.limit, ""⟩ := by
  have hne : filter.cursor ≠ "" := by
    intro h0
    rw [h0, decode_empty] at hdec
    simp at hdec
  unfold SleepLogRepository.list listPred
  rw [if_pos hne, hdec]
  rfl

/-- Witness for C9: the listing with an undecodable cursor string equals
the cursorless listing of the same store. -/
theorem claim9_bad_cursor_ignored_witness :
    SleepLogRepository.list
        [⟨1, 1, 50, 60, 5, .core, "UTC", none, 0⟩,
         ⟨2, 1, 70, 80, 5, .nap, "UTC", none, 0⟩] 1 ⟨none, none, 0, "bad!=base64"⟩
      = SleepLogRepository.list
        [⟨1, 1, 50, 60, 5, .core, "UTC", none, 0⟩,
         ⟨2, 1, 70, 80, 5, .nap, "UTC", none, 0⟩] 1 ⟨none, none, 0, ""⟩ :=
  claim9_bad_cursor_ignored
    [⟨1, 1, 50, 60, 5, .core, "UTC", none, 0⟩,
     ⟨2, 1, 70, 80, 5, .nap, "UTC", none, 0⟩] 1 ⟨none, none, 0, "bad!=base64"⟩
    "illegal base64 data" (by decide)

end SleepTracker
